import Mathlib

/-!
# Verification of the weatherust fleet-operations toolkit

Shallow embedding of the core data model and operations of the repository
(server registry, remote executor, Docker cleanup engine, webhook control
plane, notification fan-out) together with proofs of the specification's
quantified invariants.

Conventions used throughout:
* Rust `u64` values are embedded as `Nat`; where wrap-around of `u64`
  addition matters it is written explicitly as `% 2 ^ 64`.
* Rust `i64` values are embedded as `Int`.
* Environment-variable reads and process/SSH/Docker I/O are passed in as
  explicit parameters (`Option String` for an environment lookup, outcome
  values for I/O), so every function is a pure function of its inputs.
* Rust `String` operations are modelled on `List Char`; `str::trim` is
  modelled as trimming the ASCII whitespace characters (the inputs at stake
  are ASCII).
-/

instance {ε α : Type} [DecidableEq ε] [DecidableEq α] : DecidableEq (Except ε α)
  | .ok a, .ok b =>
    if h : a = b then isTrue (by rw [h]) else isFalse (by simp [h])
  | .error a, .error b =>
    if h : a = b then isTrue (by rw [h]) else isFalse (by simp [h])
  | .ok _, .error _ => isFalse (by simp)
  | .error _, .ok _ => isFalse (by simp)

/-- Lowercase an ASCII letter, leave every other character unchanged
(model of Rust `u8::to_ascii_lowercase` applied per character). -/
def asciiLowerChar (c : Char) : Char :=
  if 65 ≤ c.toNat ∧ c.toNat ≤ 90 then Char.ofNat (c.toNat + 32) else c

/-- Uppercase an ASCII letter, leave every other character unchanged
(model of Rust `str::to_uppercase` restricted to ASCII, which is all the
size-string alphabet contains). -/
def asciiUpperChar (c : Char) : Char :=
  if 97 ≤ c.toNat ∧ c.toNat ≤ 122 then Char.ofNat (c.toNat - 32) else c

/-- Model of Rust `str::eq_ignore_ascii_case`. -/
def eqIgnoreAsciiCase (a b : String) : Bool :=
  a.data.map asciiLowerChar == b.data.map asciiLowerChar

/-- Trim leading and trailing whitespace from a character list
(model of Rust `str::trim` on ASCII input). -/
def rustTrimList (l : List Char) : List Char :=
  ((l.dropWhile Char.isWhitespace).reverse.dropWhile Char.isWhitespace).reverse

/-- Model of Rust `str::trim` (ASCII whitespace). -/
def rustTrim (s : String) : String :=
  ⟨rustTrimList s.data⟩

/-- Does the character list `s` end with the character list `p`?
(model of Rust `str::ends_with`). -/
def endsWithList (s p : List Char) : Bool :=
  p.reverse.isPrefixOf s.reverse

/-- Does the character list `s` contain `p` as a contiguous run?
(model of Rust `str::contains` with a string pattern). -/
def listContainsSub : List Char → List Char → Bool
  | s, p => p.isPrefixOf s ||
      match s with
      | [] => false
      | _ :: rest => listContainsSub rest p

/-- Model of Rust `str::contains` with a string pattern. -/
def strContains (s pat : String) : Bool :=
  listContainsSub s.data pat.data

/-- Split a character list at every occurrence of the separator
(model of Rust `str::split(char)`: an empty input yields one empty piece,
a trailing separator yields a trailing empty piece). -/
def splitCharList (sep : Char) : List Char → List (List Char)
  | [] => [[]]
  | c :: cs =>
    let rest := splitCharList sep cs
    if c = sep then [] :: rest
    else
      match rest with
      | r :: rs => (c :: r) :: rs
      | [] => [[c]]

/-- Model of Rust `str::split(char)` collected into a vector. -/
def rustSplitChar (sep : Char) (s : String) : List String :=
  (splitCharList sep s.data).map (⟨·⟩)

/-! ## Server identity (src/updatectl/src/types.rs, src/common/src/lib.rs) -/

/-- A named target: display name plus optional SSH endpoint
(`Server` in `src/updatectl/src/types.rs`). `sshHost = none` means the
local host. -/
structure Server where
  name : String
  sshHost : Option String
deriving DecidableEq, Repr

/-- `Server::local()`: the environment lookup of `UPDATE_LOCAL_NAME`
is passed in as `envLocalName`. -/
def Server.localServer (envLocalName : Option String) : Server :=
  { name := envLocalName.getD "localhost", sshHost := none }

/-- `Server::parse` from `src/updatectl/src/types.rs`: split on `:`;
one part is either a localhost indicator or `user@host` (name = text after
the last `@`); two parts are `name:host` where a localhost-indicator host
yields a local server; three or more parts are rejected. -/
def Server.parse (envLocalName : Option String) (input : String) :
    Except String Server :=
  match rustSplitChar ':' input with
  | [p] =>
    let part := rustTrim p
    if eqIgnoreAsciiCase part "local" || eqIgnoreAsciiCase part "localhost" then
      .ok (Server.localServer envLocalName)
    else
      let sshHost := part
      let name := ((rustSplitChar '@' sshHost).getLast?).getD "unknown"
      .ok { name := name, sshHost := some sshHost }
  | [n, h] =>
    let name := rustTrim n
    let host := rustTrim h
    if eqIgnoreAsciiCase host "local" || eqIgnoreAsciiCase host "localhost" then
      .ok { name := name, sshHost := none }
    else
      .ok { name := name, sshHost := some host }
  | _ => .error ("Invalid server format: " ++ input ++
      ". Expected 'name:user@host' or 'user@host'")

/-- `Server::is_local`: a server is local iff its SSH endpoint is absent. -/
def Server.is_local (srv : Server) : Bool :=
  srv.sshHost.isNone

/-- The host component of a server spec, as the specification describes it:
the single part of a one-part spec, or the part after the `:` of a two-part
spec, trimmed. -/
def specHostComponent (input : String) : Option String :=
  match rustSplitChar ':' input with
  | [p] => some (rustTrim p)
  | [_, h] => some (rustTrim h)
  | _ => none

/-- Is `t` one of the localhost indicators `local` / `localhost`,
compared ASCII-case-insensitively? -/
def isLocalHostToken (t : String) : Bool :=
  eqIgnoreAsciiCase t "local" || eqIgnoreAsciiCase t "localhost"

example : Server.parse none "Cloud VM1:ubuntu@10.0.0.5" =
    .ok { name := "Cloud VM1", sshHost := some "ubuntu@10.0.0.5" } := by decide

example : Server.parse none "name:LOCAL" = .ok { name := "name", sshHost := none } := by decide

/-- C2, counterexample: on the accepted spec `"box:"` the host component is
empty, yet `Server::parse` yields a server whose SSH endpoint is the
(non-absent) empty string, so the server is not local.  The claim's "empty
host component implies local" direction is false on the code. -/
theorem server_parse_empty_host_not_local :
    Server.parse none "box:" = .ok { name := "box", sshHost := some "" } ∧
    specHostComponent "box:" = some "" ∧
    (Server.mk "box" (some "")).is_local = false := by
  refine ⟨by decide, by decide, by decide⟩

/-- C2 (amended): for every server spec accepted by `Server::parse`, the
resulting server is local iff the host component of the spec is `local` or
`localhost` compared ASCII-case-insensitively; an empty host component does
not make the server local (it yields an empty SSH endpoint instead). -/
theorem server_parse_is_local_iff_host_token (env : Option String)
    (input : String) (srv : Server)
    (h : Server.parse env input = .ok srv) :
    ∃ t, specHostComponent input = some t ∧
      srv.is_local = isLocalHostToken t := by
  rcases hs : rustSplitChar ':' input with _ | ⟨p, _ | ⟨q, _ | _⟩⟩ <;>
    simp only [Server.parse, specHostComponent, hs] at h ⊢
  · exact absurd h (by simp)
  · refine ⟨rustTrim p, rfl, ?_⟩
    split at h
    · next hc =>
      cases h
      simp [Server.is_local, Server.localServer, isLocalHostToken, hc]
    · next hc =>
      cases h
      simp only [isLocalHostToken]
      simpa [Server.is_local] using (Bool.not_eq_true _).mp hc
  · refine ⟨rustTrim q, rfl, ?_⟩
    split at h
    · next hc =>
      cases h
      simp [Server.is_local, isLocalHostToken, hc]
    · next hc =>
      cases h
      simp only [isLocalHostToken]
      simpa [Server.is_local] using (Bool.not_eq_true _).mp hc
  · exact absurd h (by simp)

/-- Witness for `server_parse_is_local_iff_host_token` at the concrete spec
`"name:LOCAL"`. -/
theorem server_parse_is_local_iff_host_token_witness :
    ∃ t, specHostComponent "name:LOCAL" = some t ∧
      (Server.mk "name" none).is_local = isLocalHostToken t :=
  server_parse_is_local_iff_host_token none "name:LOCAL"
    (Server.mk "name" none) (by decide)

/-! ## JSON values (model of `serde_json::Value`) -/

/-- Model of `serde_json::Value`: the JSON data the Docker CLI emits.
Numbers are embedded as rationals (exact decimal values). -/
inductive JsonVal where
  | null
  | bool (b : Bool)
  | num (q : ℚ)
  | str (s : String)
  | arr (items : List JsonVal)
  | obj (fields : List (String × JsonVal))

/-- `Value::get(key)`: field lookup on an object, `None` on anything else
(objects are modelled as association lists, first binding wins). -/
def JsonVal.get (j : JsonVal) (key : String) : Option JsonVal :=
  match j with
  | .obj fields => fields.lookup key
  | _ => none

/-- `Value::as_str`. -/
def JsonVal.asStr : JsonVal → Option String
  | .str s => some s
  | _ => none

/-- `Value::as_array`. -/
def JsonVal.asArray : JsonVal → Option (List JsonVal)
  | .arr items => some items
  | _ => none

/-! ## Webhook control plane (src/updatectl/src/webhook.rs)

The handlers are `async fn`s that either return an HTTP response directly
or `tokio::spawn` one background task and then return.  They are embedded
as pure functions from the request to the pair (response, list of spawned
background tasks); the notification fan-out happens inside the spawned
task, so an empty task list means no operation is started and no
notification is sent.  The `HashMap` registry is modelled as an
association list and the shared `reqwest::Client` is omitted (it carries
no data the handlers inspect). -/

/-- `WebhookState`: process-wide webhook server state. -/
structure WebhookState where
  secret : String
  servers : List (String × Server)
  sshKey : Option String

/-- `WebhookQuery`: query parameters of the update routes. -/
structure WebhookQuery where
  server : String
  token : String
  image : Option String

/-- `CleanupQuery`: query parameters of the cleanup routes. -/
structure CleanupQuery where
  server : String
  token : String

/-- One background task spawned by a webhook handler (the body of the
corresponding `tokio::spawn`, which runs the operation and then sends the
Gotify/ntfy notifications). -/
inductive BgTask where
  | osUpdate (srv : Server) (sshKey : Option String)
  | dockerAllUpdate (srv : Server) (sshKey : Option String)
  | dockerImageUpdate (srv : Server) (image : String) (sshKey : Option String)
  | cleanupSafe (srv : Server) (sshKey : Option String)
  | cleanupPruneUnused (srv : Server) (sshKey : Option String)
deriving DecidableEq

/-- An HTTP response: status code and plain-text body. -/
structure HttpResponse where
  status : Nat
  body : String
deriving DecidableEq

/-- `handle_os_update`: token check, registry lookup, then spawn the OS
update task and acknowledge with 202. -/
def handle_os_update (state : WebhookState) (params : WebhookQuery) :
    HttpResponse × List BgTask :=
  if params.token ≠ state.secret then
    (⟨401, "Invalid token"⟩, [])
  else
    match state.servers.lookup params.server with
    | none => (⟨400, "Unknown server: " ++ params.server⟩, [])
    | some srv =>
      (⟨202, "OS update started for " ++ params.server⟩,
        [.osUpdate srv state.sshKey])

/-- `handle_docker_all_update`. -/
def handle_docker_all_update (state : WebhookState) (params : WebhookQuery) :
    HttpResponse × List BgTask :=
  if params.token ≠ state.secret then
    (⟨401, "Invalid token"⟩, [])
  else
    match state.servers.lookup params.server with
    | none => (⟨400, "Unknown server: " ++ params.server⟩, [])
    | some srv =>
      (⟨202, "Docker update started for " ++ params.server⟩,
        [.dockerAllUpdate srv state.sshKey])

/-- `handle_docker_image_update`: also requires the `image` parameter,
checked after the token and before the registry lookup. -/
def handle_docker_image_update (state : WebhookState) (params : WebhookQuery) :
    HttpResponse × List BgTask :=
  if params.token ≠ state.secret then
    (⟨401, "Invalid token"⟩, [])
  else
    match params.image with
    | none => (⟨400, "Missing image parameter"⟩, [])
    | some image =>
      match state.servers.lookup params.server with
      | none => (⟨400, "Unknown server: " ++ params.server⟩, [])
      | some srv =>
        (⟨202, "Docker image " ++ image ++ " update started for " ++
            params.server⟩,
          [.dockerImageUpdate srv image state.sshKey])

/-- `handle_cleanup_safe`. -/
def handle_cleanup_safe (state : WebhookState) (params : CleanupQuery) :
    HttpResponse × List BgTask :=
  if params.token ≠ state.secret then
    (⟨401, "Invalid token"⟩, [])
  else
    match state.servers.lookup params.server with
    | none => (⟨400, "Unknown server: " ++ params.server⟩, [])
    | some srv =>
      (⟨202, "Safe cleanup started for " ++ params.server⟩,
        [.cleanupSafe srv state.sshKey])

/-- `handle_cleanup_prune_unused`. -/
def handle_cleanup_prune_unused (state : WebhookState) (params : CleanupQuery) :
    HttpResponse × List BgTask :=
  if params.token ≠ state.secret then
    (⟨401, "Invalid token"⟩, [])
  else
    match state.servers.lookup params.server with
    | none => (⟨400, "Unknown server: " ++ params.server⟩, [])
    | some srv =>
      (⟨202, "Unused image cleanup started for " ++ params.server⟩,
        [.cleanupPruneUnused srv state.sshKey])

/-- C1: on every update or cleanup webhook route, a request whose `token`
query parameter differs from the configured secret is answered with HTTP
401 and spawns no background task, so no update or cleanup operation is
started and no notification is sent. -/
theorem webhook_bad_token_401_no_task (state : WebhookState)
    (q : WebhookQuery) (cq : CleanupQuery)
    (hq : q.token ≠ state.secret) (hcq : cq.token ≠ state.secret) :
    handle_os_update state q = (⟨401, "Invalid token"⟩, []) ∧
    handle_docker_all_update state q = (⟨401, "Invalid token"⟩, []) ∧
    handle_docker_image_update state q = (⟨401, "Invalid token"⟩, []) ∧
    handle_cleanup_safe state cq = (⟨401, "Invalid token"⟩, []) ∧
    handle_cleanup_prune_unused state cq = (⟨401, "Invalid token"⟩, []) := by
  refine ⟨?_, ?_, ?_, ?_, ?_⟩ <;>
    simp [handle_os_update, handle_docker_all_update,
      handle_docker_image_update, handle_cleanup_safe,
      handle_cleanup_prune_unused, hq, hcq]

/-- Witness for `webhook_bad_token_401_no_task` on the concrete request of
the spec's end-to-end scenario 5 (secret `"right"`, token `"wrong"`). -/
theorem webhook_bad_token_401_no_task_witness :
    handle_os_update ⟨"right", [], none⟩ ⟨"Cloud VM1", "wrong", none⟩ =
      (⟨401, "Invalid token"⟩, []) ∧
    handle_docker_all_update ⟨"right", [], none⟩ ⟨"Cloud VM1", "wrong", none⟩ =
      (⟨401, "Invalid token"⟩, []) ∧
    handle_docker_image_update ⟨"right", [], none⟩ ⟨"Cloud VM1", "wrong", none⟩ =
      (⟨401, "Invalid token"⟩, []) ∧
    handle_cleanup_safe ⟨"right", [], none⟩ ⟨"Cloud VM1", "wrong"⟩ =
      (⟨401, "Invalid token"⟩, []) ∧
    handle_cleanup_prune_unused ⟨"right", [], none⟩ ⟨"Cloud VM1", "wrong"⟩ =
      (⟨401, "Invalid token"⟩, []) :=
  webhook_bad_token_401_no_task ⟨"right", [], none⟩
    ⟨"Cloud VM1", "wrong", none⟩ ⟨"Cloud VM1", "wrong"⟩
    (by decide) (by decide)

/-- C10: a request with a matching token but a server name absent from the
registry is answered with HTTP 400 and an "Unknown server" message, and no
background task is spawned (shown for the OS-update and safe-cleanup
handlers the claim cites). -/
theorem webhook_unknown_server_400_no_task (state : WebhookState)
    (q : WebhookQuery) (cq : CleanupQuery)
    (hq : q.token = state.secret) (hcq : cq.token = state.secret)
    (huq : state.servers.lookup q.server = none)
    (hucq : state.servers.lookup cq.server = none) :
    handle_os_update state q =
      (⟨400, "Unknown server: " ++ q.server⟩, []) ∧
    handle_cleanup_safe state cq =
      (⟨400, "Unknown server: " ++ cq.server⟩, []) := by
  constructor <;>
    simp [handle_os_update, handle_cleanup_safe, hq, hcq, huq, hucq]

/-- Witness for `webhook_unknown_server_400_no_task`: matching token
`"right"` and a registry that does not contain `"ghost"`. -/
theorem webhook_unknown_server_400_no_task_witness :
    handle_os_update ⟨"right", [("web", Server.mk "web" none)], none⟩
        ⟨"ghost", "right", none⟩ =
      (⟨400, "Unknown server: ghost"⟩, []) ∧
    handle_cleanup_safe ⟨"right", [("web", Server.mk "web" none)], none⟩
        ⟨"ghost", "right"⟩ =
      (⟨400, "Unknown server: ghost"⟩, []) :=
  webhook_unknown_server_400_no_task
    ⟨"right", [("web", Server.mk "web" none)], none⟩
    ⟨"ghost", "right", none⟩ ⟨"ghost", "right"⟩
    rfl rfl (by decide) (by decide)

/-! ## Docker cleanup data model (src/dockermon/src/cleanup/types.rs) -/

/-- Wrapping `u64` addition. -/
def add64 (a b : Nat) : Nat :=
  (a + b) % 2 ^ 64

/-- `ImageInfo`. -/
structure ImageInfo where
  repository : String
  tag : String
  image_id : String
  size_bytes : Nat
  created_timestamp : Int
deriving DecidableEq, Repr

/-- `ImageStats`. -/
structure ImageStats where
  count : Nat
  total_size_bytes : Nat
  items : List ImageInfo
deriving DecidableEq, Repr

/-- `NetworkInfo`. -/
structure NetworkInfo where
  id : String
  name : String
  driver : String
  created_timestamp : Int
deriving DecidableEq, Repr

/-- `NetworkStats`. -/
structure NetworkStats where
  count : Nat
  items : List NetworkInfo
deriving DecidableEq, Repr

/-- `LogInfo`. -/
structure LogInfo where
  container_name : String
  container_id : String
  log_size_bytes : Nat
  has_rotation : Bool
deriving DecidableEq, Repr

/-- `LogStats`. -/
structure LogStats where
  total_size_bytes : Nat
  containers_over_threshold : Nat
  items : List LogInfo
deriving DecidableEq, Repr

/-- `VolumeInfo`. -/
structure VolumeInfo where
  name : String
  driver : String
  mount_point : String
  size_bytes : Nat
  created_timestamp : Int
  containers_using : List String
deriving DecidableEq, Repr

/-- `VolumeStats`. -/
structure VolumeStats where
  count : Nat
  total_size_bytes : Nat
  items : List VolumeInfo
deriving DecidableEq, Repr

/-- `BuildCacheItem`. -/
structure BuildCacheItem where
  id : String
  cache_type : String
  size_bytes : Nat
  created_timestamp : Int
  last_used_timestamp : Option Int
  in_use : Bool
  shared : Bool
deriving DecidableEq, Repr

/-- `BuildCacheStats`. -/
structure BuildCacheStats where
  total_size_bytes : Nat
  reclaimable_bytes : Nat
  items : List BuildCacheItem
deriving DecidableEq, Repr

/-- `ContainerInfo`. -/
structure ContainerInfo where
  id : String
  name : String
  image : String
  size_bytes : Nat
  created_timestamp : Int
  stopped_timestamp : Option Int
  exit_code : Option Int
  status : String
deriving DecidableEq, Repr

/-- `ContainerStats`. -/
structure ContainerStats where
  count : Nat
  total_size_bytes : Nat
  items : List ContainerInfo
deriving DecidableEq, Repr

/-- `CleanupReport`: the per-server aggregate of all analyses. -/
structure CleanupReport where
  server : String
  dangling_images : ImageStats
  unused_images : ImageStats
  unused_networks : NetworkStats
  build_cache : BuildCacheStats
  stopped_containers : ContainerStats
  large_logs : LogStats
  volumes : VolumeStats
  total_reclaimable_bytes : Nat
deriving DecidableEq, Repr

/-- `CleanupReport::new`: all components empty, total 0. -/
def CleanupReport.new (server : String) : CleanupReport :=
  { server := server
    dangling_images := ⟨0, 0, []⟩
    unused_images := ⟨0, 0, []⟩
    unused_networks := ⟨0, []⟩
    build_cache := ⟨0, 0, []⟩
    stopped_containers := ⟨0, 0, []⟩
    large_logs := ⟨0, 0, []⟩
    volumes := ⟨0, 0, []⟩
    total_reclaimable_bytes := 0 }

/-- `CleanupReport::calculate_reclaimable`: total = dangling images +
build cache + stopped containers (`u64` addition). -/
def CleanupReport.calculate_reclaimable (r : CleanupReport) : CleanupReport :=
  { r with
    total_reclaimable_bytes :=
      add64 (add64 r.dangling_images.total_size_bytes
          r.build_cache.total_size_bytes)
        r.stopped_containers.total_size_bytes }

/-! ## Cleanup analyzer (src/dockermon/src/cleanup/mod.rs)

`analyze_cleanup` drives seven analyzers over the Docker API; each analyzer
is I/O, so its outcome is passed in explicitly.  A failing analyzer makes
`analyze_cleanup` fail via `?`. -/

/-- The outcomes of the seven analyzers `analyze_cleanup` awaits. -/
structure AnalyzeOutcomes where
  dangling : Except String ImageStats
  unused : Except String ImageStats
  networks : Except String NetworkStats
  buildCache : Except String BuildCacheStats
  stopped : Except String ContainerStats
  largeLogs : Except String LogStats
  volumes : Except String VolumeStats

/-- `analyze_cleanup`: run the seven analyzers in order (each `?`
propagates failure), assemble the report, then compute the reclaimable
total. -/
def analyze_cleanup (o : AnalyzeOutcomes) : Except String CleanupReport := do
  let dangling ← o.dangling
  let unused ← o.unused
  let networks ← o.networks
  let buildCache ← o.buildCache
  let stopped ← o.stopped
  let largeLogs ← o.largeLogs
  let volumes ← o.volumes
  let report :=
    { CleanupReport.new "local" with
      dangling_images := dangling
      unused_images := unused
      unused_networks := networks
      build_cache := buildCache
      stopped_containers := stopped
      large_logs := largeLogs
      volumes := volumes }
  pure report.calculate_reclaimable

/-- C4: every report produced by `analyze_cleanup` satisfies
`total_reclaimable_bytes = dangling + build cache + stopped containers`
(in `u64` arithmetic, hence exactly whenever the sum fits in 64 bits);
unused images, networks, logs and volumes contribute nothing. -/
theorem analyze_cleanup_total_reclaimable (o : AnalyzeOutcomes)
    (r : CleanupReport) (h : analyze_cleanup o = .ok r) :
    r.total_reclaimable_bytes =
      (r.dangling_images.total_size_bytes + r.build_cache.total_size_bytes +
        r.stopped_containers.total_size_bytes) % 2 ^ 64 ∧
    (r.dangling_images.total_size_bytes + r.build_cache.total_size_bytes +
        r.stopped_containers.total_size_bytes < 2 ^ 64 →
      r.total_reclaimable_bytes =
        r.dangling_images.total_size_bytes + r.build_cache.total_size_bytes +
          r.stopped_containers.total_size_bytes) := by
  rcases hd : o.dangling with _ | dangling <;>
    rcases hu : o.unused with _ | unused <;>
    rcases hn : o.networks with _ | networks <;>
    rcases hb : o.buildCache with _ | buildCache <;>
    rcases hs : o.stopped with _ | stopped <;>
    rcases hl : o.largeLogs with _ | largeLogs <;>
    rcases hv : o.volumes with _ | volumes <;>
    simp only [analyze_cleanup, hd, hu, hn, hb, hs, hl, hv, bind, Except.bind,
      pure, Except.pure, Except.ok.injEq, reduceCtorEq] at h
  subst h
  refine ⟨?_, fun hlt => ?_⟩
  · simp [CleanupReport.calculate_reclaimable, add64, Nat.mod_add_mod]
  · simp only [CleanupReport.calculate_reclaimable, add64, Nat.mod_add_mod]
    exact Nat.mod_eq_of_lt hlt

/-- Witness for `analyze_cleanup_total_reclaimable` at a concrete set of
analyzer outcomes (sizes 10, 20 and 30). -/
theorem analyze_cleanup_total_reclaimable_witness :
    ({ CleanupReport.new "local" with
        dangling_images := ⟨1, 10, []⟩
        build_cache := ⟨20, 5, []⟩
        stopped_containers := ⟨2, 30, []⟩
        total_reclaimable_bytes := 60 } : CleanupReport).total_reclaimable_bytes
      = (10 + 20 + 30) % 2 ^ 64 :=
  (analyze_cleanup_total_reclaimable
    ⟨.ok ⟨1, 10, []⟩, .ok ⟨0, 0, []⟩, .ok ⟨0, []⟩, .ok ⟨20, 5, []⟩,
      .ok ⟨2, 30, []⟩, .ok ⟨0, 0, []⟩, .ok ⟨0, 0, []⟩⟩
    _ (by decide)).1

/-! ## Cleanup profiles (src/dockermon/src/cleanup/profiles.rs) -/

/-- `CleanupProfile`: three-tier aggressiveness. -/
inductive CleanupProfile where
  | conservative
  | moderate
  | aggressive
deriving DecidableEq, Repr

/-- `CleanupProfile::from_str` (lowercased match). -/
def CleanupProfile.from_str (s : String) : Option CleanupProfile :=
  let ls : String := ⟨s.data.map asciiLowerChar⟩
  if ls = "conservative" then some .conservative
  else if ls = "moderate" then some .moderate
  else if ls = "aggressive" then some .aggressive
  else none

/-- `CleanupProfile::stopped_container_age_days` (`i64`). -/
def CleanupProfile.stopped_container_age_days : CleanupProfile → Int
  | .conservative => 30
  | .moderate => 7
  | .aggressive => 0

/-- `CleanupProfile::unused_image_age_days` (`i64`; conservative uses
`i64::MAX`). -/
def CleanupProfile.unused_image_age_days : CleanupProfile → Int
  | .conservative => 9223372036854775807
  | .moderate => 90
  | .aggressive => 30

/-- `CleanupProfile::prune_unused_images`. -/
def CleanupProfile.prune_unused_images : CleanupProfile → Bool
  | .conservative => false
  | .moderate => true
  | .aggressive => true

/-- `CleanupResult`: tallies of one cleanup execution. -/
structure CleanupResult where
  dangling_images_removed : Nat
  unused_images_removed : Nat
  networks_removed : Nat
  build_cache_reclaimed : Nat
  stopped_containers_removed : Nat
  space_reclaimed_bytes : Nat
  errors : List String
deriving DecidableEq, Repr

/-- `CleanupResult::default()`. -/
def CleanupResult.empty : CleanupResult :=
  ⟨0, 0, 0, 0, 0, 0, []⟩

/-- Count and bytes reclaimed by one prune call. -/
structure PruneStats where
  count : Nat
  space_reclaimed : Nat
deriving DecidableEq, Repr

/-- Outcomes of the four prune calls `execute_safe_cleanup` awaits. -/
structure SafeCleanupOutcomes where
  danglingPrune : Except String PruneStats
  networksPrune : Except String Nat
  buildCachePrune : Except String PruneStats
  stoppedPrune : Except String PruneStats

/-- `execute_safe_cleanup` (src/dockermon/src/cleanup/mod.rs): each prune
failure is recorded in `errors` and never propagated, so the function
always returns `Ok`. -/
def execute_safe_cleanup (o : SafeCleanupOutcomes) :
    Except String CleanupResult :=
  let r0 := CleanupResult.empty
  let r1 :=
    match o.danglingPrune with
    | .ok stats =>
      { r0 with
        dangling_images_removed := stats.count
        space_reclaimed_bytes :=
          add64 r0.space_reclaimed_bytes stats.space_reclaimed }
    | .error e =>
      { r0 with
        errors := r0.errors ++ ["Failed to prune dangling images: " ++ e] }
  let r2 :=
    match o.networksPrune with
    | .ok count => { r1 with networks_removed := count }
    | .error e =>
      { r1 with errors := r1.errors ++ ["Failed to prune networks: " ++ e] }
  let r3 :=
    match o.buildCachePrune with
    | .ok stats =>
      { r2 with
        build_cache_reclaimed := stats.space_reclaimed
        space_reclaimed_bytes :=
          add64 r2.space_reclaimed_bytes stats.space_reclaimed }
    | .error e =>
      { r2 with
        errors := r2.errors ++ ["Failed to prune build cache: " ++ e] }
  let r4 :=
    match o.stoppedPrune with
    | .ok stats =>
      { r3 with
        stopped_containers_removed := stats.count
        space_reclaimed_bytes :=
          add64 r3.space_reclaimed_bytes stats.space_reclaimed }
    | .error e =>
      { r3 with
        errors := r3.errors ++ ["Failed to prune stopped containers: " ++ e] }
  .ok r4

/-- `execute_unused_image_cleanup` (src/dockermon/src/cleanup/mod.rs):
likewise records the prune failure and always returns `Ok`. -/
def execute_unused_image_cleanup (o : Except String PruneStats) :
    Except String CleanupResult :=
  let r0 := CleanupResult.empty
  let r1 :=
    match o with
    | .ok stats =>
      { r0 with
        unused_images_removed := stats.count
        space_reclaimed_bytes :=
          add64 r0.space_reclaimed_bytes stats.space_reclaimed }
    | .error e =>
      { r0 with
        errors := r0.errors ++ ["Failed to prune unused images: " ++ e] }
  .ok r1

/-- The two environment variables the profile orchestrator mutates. -/
structure CleanupEnv where
  stoppedAgeDays : Option String
  imageAgeDays : Option String
deriving DecidableEq, Repr

/-- `execute_cleanup_with_profile` (src/dockermon/src/cleanup/profiles.rs):
save the two threshold variables, overwrite them from the profile, run the
safe cleanup (`?` would propagate its failure without restoring), then the
unused-image cleanup for moderate/aggressive profiles (its failure is
recorded in `errors`), and finally restore the saved values — removing a
variable that was absent before.  Returns the result together with the
final environment. -/
def execute_cleanup_with_profile (env0 : CleanupEnv)
    (profile : CleanupProfile) (safeO : SafeCleanupOutcomes)
    (unusedO : Except String PruneStats) :
    Except String CleanupResult × CleanupEnv :=
  let original_container_age := env0.stoppedAgeDays
  let original_image_age := env0.imageAgeDays
  let env1 : CleanupEnv :=
    ⟨some (toString profile.stopped_container_age_days),
      some (toString profile.unused_image_age_days)⟩
  match execute_safe_cleanup safeO with
  | .error e => (.error e, env1)
  | .ok result =>
    let result :=
      if profile.prune_unused_images then
        match execute_unused_image_cleanup unusedO with
        | .ok u =>
          { result with
            unused_images_removed := u.unused_images_removed
            space_reclaimed_bytes :=
              add64 result.space_reclaimed_bytes u.space_reclaimed_bytes }
        | .error e =>
          { result with
            errors := result.errors ++
              ["Failed to prune unused images: " ++ e] }
      else result
    let env2 : CleanupEnv := ⟨original_container_age, original_image_age⟩
    (.ok result, env2)

/-- C3: for every profile, prior environment and inner-cleanup outcomes —
succeeding or failing in any combination — `execute_cleanup_with_profile`
leaves `DOCKERMON_CLEANUP_STOPPED_AGE_DAYS` and
`DOCKERMON_CLEANUP_IMAGE_AGE_DAYS` at exactly their original values,
including absence.  This holds because `execute_safe_cleanup` never
returns `Err` (prune failures are collected into `errors`), so the `?`
that would skip the restore code never fires. -/
theorem execute_cleanup_with_profile_restores_env (env0 : CleanupEnv)
    (profile : CleanupProfile) (safeO : SafeCleanupOutcomes)
    (unusedO : Except String PruneStats) :
    (execute_cleanup_with_profile env0 profile safeO unusedO).2 = env0 :=
  rfl

/-! ## Remote executor (src/updatectl/src/executor.rs)

`execute_local` / `execute_ssh` spawn a process (locally or the system
`ssh` client) under a 120-second timeout.  The outcome of that spawn is
I/O, so it is passed in explicitly: the process either timed out, failed
to spawn, or completed with an exit code, stdout and stderr. -/

/-- The single-quote character (written by code point to keep the
quoting rules readable). -/
def squote : Char := Char.ofNat 39

/-- Replace every single quote in `s` by the four-character sequence
quote–backslash–quote–quote (Rust `arg.replace` inside `execute_ssh`). -/
def escapeSingleQuotes (s : String) : String :=
  ⟨s.data.flatMap fun c =>
    if c = squote then [squote, '\\', squote, squote] else [c]⟩

/-- Quote one remote argument: arguments containing a space, `*` or `$`
become POSIX single-quoted tokens, others pass through. -/
def quoteArg (arg : String) : String :=
  if strContains arg " " || strContains arg "*" || strContains arg "$" then
    ⟨squote :: (escapeSingleQuotes arg).data ++ [squote]⟩
  else arg

/-- Build the remote command line: `cmd` and the quoted arguments joined
by single spaces (no arguments: just `cmd`). -/
def buildRemoteCommand (cmd : String) (args : List String) : String :=
  if args.isEmpty then cmd
  else cmd ++ " " ++ String.intercalate " " (args.map quoteArg)

/-- Outcome of one bounded process execution. -/
inductive ProcessOutcome where
  | timeout
  | spawnError (msg : String)
  | completed (exitCode : Int) (stdout stderr : String)
deriving DecidableEq, Repr

/-- `RemoteExecutor::execute_local`: timeout and spawn failure are errors;
a completed process returns its captured stdout regardless of exit code
(stderr only goes to the diagnostic log). -/
def execute_local (cmd : String) (args : List String)
    (o : ProcessOutcome) : Except String String :=
  match o with
  | .timeout =>
    .error ("Command timed out after 120s: " ++ cmd ++ " " ++
      String.intercalate " " args)
  | .spawnError e => .error ("Failed to execute " ++ cmd ++ ": " ++ e)
  | .completed _ stdout _ => .ok stdout

/-- `RemoteExecutor::execute_ssh`: requires an SSH endpoint; invokes the
system ssh client (BatchMode=yes, StrictHostKeyChecking=accept-new, the
configured identity file) on `buildRemoteCommand`; timeout and spawn
failure are errors; a completed call fails only when the exit status is
non-zero and stderr reveals an unambiguous transport failure. -/
def execute_ssh (server : Server) (cmd : String) (args : List String)
    (o : ProcessOutcome) : Except String String :=
  match server.sshHost with
  | none => .error "No SSH host configured"
  | some ssh_host =>
    let _remote_cmd := buildRemoteCommand cmd args
    match o with
    | .timeout =>
      .error ("SSH command timed out after 120s to " ++ ssh_host)
    | .spawnError e =>
      .error ("Failed to SSH to " ++ ssh_host ++ ": " ++ e)
    | .completed exitCode stdout stderr =>
      if exitCode ≠ 0 then
        if strContains stderr "Permission denied" ||
            strContains stderr "Connection refused" then
          .error ("SSH failed: " ++ stderr)
        else .ok stdout
      else .ok stdout

/-- C5: a local process that spawns and completes is never an error —
whatever its exit code, stdout is returned (only timeout and spawn failure
are errors); a completed SSH call errors exactly when the exit status is
non-zero and stderr contains `"Permission denied"` or
`"Connection refused"`, and returns stdout otherwise. -/
theorem executor_exit_code_semantics (cmd : String) (args : List String)
    (code : Int) (out err : String) (name host : String) (m : String) :
    execute_local cmd args (.completed code out err) = .ok out ∧
    (execute_local cmd args .timeout).isOk = false ∧
    (execute_local cmd args (.spawnError m)).isOk = false ∧
    execute_ssh ⟨name, some host⟩ cmd args (.completed code out err) =
      (if code ≠ 0 ∧ (strContains err "Permission denied" = true ∨
          strContains err "Connection refused" = true) then
        .error ("SSH failed: " ++ err)
      else .ok out) := by
  refine ⟨rfl, rfl, rfl, ?_⟩
  simp only [execute_ssh]
  by_cases hc : code = 0
  · simp [hc]
  · by_cases hp : strContains err "Permission denied" = true <;>
      by_cases hr : strContains err "Connection refused" = true <;>
      simp [hc, hp, hr]

/-! ## Docker image update detection (src/updatemon/src/docker.rs)

`check_image_update` runs `docker inspect` (local RepoDigest) and
`docker manifest inspect` (remote manifest); both outputs are I/O and are
passed in explicitly, together with the JSON parser (`serde_json`) as a
function parameter. -/

/-- Extract the digest hash from a `docker inspect` RepoDigest output:
trim, reject empty and `<no value>`, then take the part after the first
`@` (`split('@').nth(1)`). -/
def localRepoDigestHash (local_output : String) : Option String :=
  let local_repo_digest := rustTrim local_output
  if local_repo_digest = "" ∨ local_repo_digest = "<no value>" then none
  else (rustSplitChar '@' local_repo_digest)[1]?

/-- Extract the remote digest from a manifest JSON value: `config.digest`
first, then `manifests[0].digest` for manifest lists. -/
def manifestDigest (manifest : JsonVal) : Option String :=
  match ((manifest.get "config").bind (fun c => c.get "digest")).bind
      JsonVal.asStr with
  | some d => some d
  | none =>
    ((((manifest.get "manifests").bind JsonVal.asArray).bind
        List.head?).bind (fun first => first.get "digest")).bind
      JsonVal.asStr

/-- `check_image_update`: compare the local RepoDigest hash with the
digest of the freshly fetched remote manifest.  Every failure after the
local inspect — remote fetch error, unparseable manifest, missing digest —
yields `Ok(false)`; only a local-inspect failure propagates as `Err`. -/
def check_image_update (localInspect : Except String String)
    (remoteManifest : Except String String)
    (parseJson : String → Option JsonVal) : Except String Bool := do
  let local_output ← localInspect
  let local_repo_digest := rustTrim local_output
  if local_repo_digest = "" ∨ local_repo_digest = "<no value>" then
    pure false
  else
    match (rustSplitChar '@' local_repo_digest)[1]? with
    | none => pure false
    | some local_digest =>
      match remoteManifest with
      | .error _ => pure false
      | .ok output =>
        match parseJson output with
        | none => pure false
        | some manifest =>
          match manifestDigest manifest with
          | some digest => pure (digest != local_digest)
          | none => pure false

/-- Specification-side restatement of C7, written from the claim's words:
the comparison yields true exactly when both the local digest and the
remote digest are present and differ, and false in every other completed
case (equal digests, missing/unparseable local digest, failed remote
fetch, unparseable manifest, missing remote digest); only the local
inspect failure propagates. -/
def check_image_update_spec (localInspect : Except String String)
    (remoteManifest : Except String String)
    (parseJson : String → Option JsonVal) : Except String Bool :=
  match localInspect with
  | .error e => .error e
  | .ok s =>
    let localD := localRepoDigestHash s
    let remoteD :=
      match remoteManifest with
      | .error _ => none
      | .ok out => (parseJson out).bind manifestDigest
    match localD, remoteD with
    | some dl, some dr => .ok (dr != dl)
    | _, _ => .ok false

/-- C7: `check_image_update` refines the conservative never-false-positive
specification: it reports an update exactly when both digests are present
and differ, and reports "no update" on equal digests and on every error or
missing-digest path after the local inspect. -/
theorem check_image_update_conservative (localInspect : Except String String)
    (remoteManifest : Except String String)
    (parseJson : String → Option JsonVal) :
    check_image_update localInspect remoteManifest parseJson =
      check_image_update_spec localInspect remoteManifest parseJson := by
  rcases localInspect with e | s
  · rfl
  · simp only [check_image_update, check_image_update_spec,
      localRepoDigestHash, bind, Except.bind]
    by_cases h0 : rustTrim s = "" ∨ rustTrim s = "<no value>"
    · simp [h0, pure, Except.pure]
    · simp only [h0, if_false]
      rcases hi : (rustSplitChar '@' (rustTrim s))[1]? with _ | dl
      · rcases remoteManifest with e | out
        · simp [pure, Except.pure]
        · rcases hp : parseJson out with _ | manifest
          · simp [hp, pure, Except.pure]
          · rcases hm : manifestDigest manifest with _ | dr <;>
              simp [hp, hm, pure, Except.pure]
      · rcases remoteManifest with e | out
        · simp [pure, Except.pure]
        · rcases hp : parseJson out with _ | manifest
          · simp [hp, pure, Except.pure]
          · rcases hm : manifestDigest manifest with _ | dr <;>
              simp [hp, hm, pure, Except.pure]

/-! ## Notification fan-out (src/updatemon/src/main.rs,
src/dockermon/src/main.rs, src/common/src/lib.rs) -/

/-- One UTF-8 code point as its byte sequence. -/
def utf8Bytes (c : Char) : List Nat :=
  let n := c.toNat
  if n < 0x80 then [n]
  else if n < 0x800 then [0xC0 + n / 0x40, 0x80 + n % 0x40]
  else if n < 0x10000 then
    [0xE0 + n / 0x1000, 0x80 + (n / 0x40) % 0x40, 0x80 + n % 0x40]
  else
    [0xF0 + n / 0x40000, 0x80 + (n / 0x1000) % 0x40,
      0x80 + (n / 0x40) % 0x40, 0x80 + n % 0x40]

/-- Uppercase hexadecimal digit. -/
def hexUpper (n : Nat) : Char :=
  if n < 10 then Char.ofNat (48 + n) else Char.ofNat (55 + n)

/-- Characters the `urlencoding` crate leaves unescaped: ASCII
alphanumerics and `-` `.` `_` `~`. -/
def isUrlUnreserved (c : Char) : Bool :=
  (48 ≤ c.toNat ∧ c.toNat ≤ 57) ∨ (65 ≤ c.toNat ∧ c.toNat ≤ 90) ∨
    (97 ≤ c.toNat ∧ c.toNat ≤ 122) ∨ c = '-' ∨ c = '.' ∨ c = '_' ∨ c = '~'

/-- Model of `urlencoding::encode`: percent-encode every UTF-8 byte of
every reserved character, uppercase hex. -/
def urlEncode (s : String) : String :=
  ⟨s.data.flatMap fun c =>
    if isUrlUnreserved c then [c]
    else (utf8Bytes c).flatMap fun b => ['%', hexUpper (b / 16), hexUpper (b % 16)]⟩

/-- `NtfyAction` (src/common/src/lib.rs): an ntfy action-button payload. -/
structure NtfyAction where
  action : String
  label : String
  url : Option String
  method : Option String
  headers : Option JsonVal
  body : Option String

/-- `NtfyAction::http_post`. -/
def NtfyAction.http_post (label url : String) : NtfyAction :=
  ⟨"http", label, some url, some "POST", none, none⟩

/-- `generate_server_action_buttons` (src/updatemon/src/main.rs): build
the per-server update action buttons.  The two environment lookups
(`UPDATECTL_WEBHOOK_URL`, `UPDATECTL_WEBHOOK_SECRET`) are parameters; a
missing secret falls back to the empty string and an empty secret
short-circuits to no buttons. -/
def generate_server_action_buttons (envWebhookUrl envWebhookSecret : Option String)
    (report : String) (server : Server) : List NtfyAction :=
  let webhook_url := envWebhookUrl.getD "http://updatectl_webhook:8080"
  let webhook_secret := envWebhookSecret.getD ""
  if webhook_secret = "" then []
  else
    let has_os_updates := strContains report "📦" && strContains report "OS:"
    let has_docker_updates := strContains report "🐳" && strContains report "Docker:"
    let server_name_encoded := urlEncode server.name
    let token_encoded := urlEncode webhook_secret
    (if has_os_updates then
      [NtfyAction.http_post "Update OS"
        (webhook_url ++ "/webhook/update/os?server=" ++ server_name_encoded ++
          "&token=" ++ token_encoded)]
    else []) ++
    (if has_docker_updates then
      [NtfyAction.http_post "Update Docker"
        (webhook_url ++ "/webhook/update/docker/all?server=" ++
          server_name_encoded ++ "&token=" ++ token_encoded)]
    else [])

/-- The `ntfy_actions` computation of `run_cleanup_for_server`
(src/dockermon/src/main.rs): cleanup-analysis action buttons.  A missing
secret falls back to the placeholder `"your_secret_token"`; buttons are
attached when no cleanup was executed and reclaimable content exists, and
are truncated to the 3-button limit. -/
def cleanup_ntfy_actions (envWebhookUrl envWebhookSecret : Option String)
    (cleanup_was_executed : Bool) (report : CleanupReport)
    (server : Server) : Option (List NtfyAction) :=
  if cleanup_was_executed = false ∧ 0 < report.total_reclaimable_bytes then
    let webhook_url := envWebhookUrl.getD "http://localhost:8080"
    let webhook_secret := envWebhookSecret.getD "your_secret_token"
    let encoded_token := urlEncode webhook_secret
    let encoded_server := urlEncode server.name
    let actions :=
      (if 0 < report.dangling_images.count ∨ 0 < report.unused_networks.count then
        [NtfyAction.http_post "Safe Cleanup"
          (webhook_url ++ "/webhook/cleanup/safe?server=" ++ encoded_server ++
            "&token=" ++ encoded_token)]
      else []) ++
      (if 0 < report.unused_images.count then
        [NtfyAction.http_post "Prune Unused Images"
          (webhook_url ++ "/webhook/cleanup/images/prune-unused?server=" ++
            encoded_server ++ "&token=" ++ encoded_token)]
      else [])
    some (actions.take 3)
  else none

/-- C8, counterexample: with `UPDATECTL_WEBHOOK_SECRET` unset, a cleanup
analysis of a report holding one dangling image (100 reclaimable bytes)
still attaches a `Safe Cleanup` action button — the cleanup fan-out falls
back to the placeholder token instead of suppressing buttons, so the claim
fails for cleanup-analysis notifications. -/
theorem cleanup_actions_without_secret_nonempty :
    ((cleanup_ntfy_actions none none false
        { CleanupReport.new "srv" with
          dangling_images := ⟨1, 100, []⟩
          total_reclaimable_bytes := 100 }
        (Server.mk "srv" none)).getD []).map NtfyAction.label =
      ["Safe Cleanup"] := by
  rfl

/-- C8 (amended): when the webhook secret is not configured, the per-server
update-inventory notifications carry no action buttons (an absent or empty
secret yields the empty button list), while the cleanup-analysis
notifications behave exactly as if the secret were the placeholder
`"your_secret_token"` — they still attach buttons whenever unexecuted
reclaimable content exists. -/
theorem fanout_buttons_secret_behavior (envUrl : Option String)
    (report : String) (server : Server) (c : Bool) (r : CleanupReport)
    (srv2 : Server) :
    generate_server_action_buttons envUrl none report server = [] ∧
    generate_server_action_buttons envUrl (some "") report server = [] ∧
    cleanup_ntfy_actions envUrl none c r srv2 =
      cleanup_ntfy_actions envUrl (some "your_secret_token") c r srv2 := by
  refine ⟨?_, ?_, rfl⟩ <;> simp [generate_server_action_buttons]

/-! ## Remote Docker timestamp parsing (src/dockermon/src/remote_cleanup.rs)

`parse_docker_timestamp` slices the first 19 **bytes** of its input
(`&timestamp_str[..19]`) and hands them to
`chrono::NaiveDateTime::parse_from_str(_, "%Y-%m-%d %H:%M:%S")`, taking
the result as UTC seconds and 0 on parse failure.  Rust byte slicing
panics when the string is shorter than 19 bytes or when byte 19 is not a
character boundary; the embedding returns `none` for exactly those panics
and `some` for every completed call. -/

/-- Byte length of one character in UTF-8. -/
def utf8CharSize (c : Char) : Nat :=
  (utf8Bytes c).length

/-- Model of Rust byte slicing `&s[..budget]` on a character list:
`none` is the out-of-bounds / non-boundary panic, `some` the sliced
character prefix. -/
def sliceBytes (budget : Nat) : List Char → Option (List Char)
  | [] => if budget = 0 then some [] else none
  | c :: cs =>
    if budget = 0 then some []
    else if utf8CharSize c ≤ budget then
      (sliceBytes (budget - utf8CharSize c) cs).map (c :: ·)
    else none

/-- ASCII decimal digit test. -/
def isDigitChar (c : Char) : Bool :=
  48 ≤ c.toNat ∧ c.toNat ≤ 57

/-- Value of an ASCII decimal digit. -/
def digitVal (c : Char) : Nat :=
  c.toNat - 48

/-- Gregorian leap-year rule. -/
def isLeapYear (y : Nat) : Bool :=
  (y % 4 == 0) && (y % 100 != 0 || y % 400 == 0)

/-- Days in a month of the proleptic Gregorian calendar. -/
def daysInMonth (y mo : Nat) : Nat :=
  match mo with
  | 1 => 31
  | 2 => if isLeapYear y then 29 else 28
  | 3 => 31
  | 4 => 30
  | 5 => 31
  | 6 => 30
  | 7 => 31
  | 8 => 31
  | 9 => 30
  | 10 => 31
  | 11 => 30
  | 12 => 31
  | _ => 0

/-- Days between 1970-01-01 and the civil date y-mo-d (the standard
era-based civil-calendar conversion chrono uses). -/
def daysFromCivil (y mo d : Nat) : Int :=
  let yAdj : Int := (y : Int) - (if mo ≤ 2 then 1 else 0)
  let era : Int := yAdj.ediv 400
  let yoe : Int := yAdj - era * 400
  let mp : Int := ((mo : Int) + 9).emod 12
  let doy : Int := (153 * mp + 2).ediv 5 + (d : Int) - 1
  let doe : Int := yoe * 365 + yoe.ediv 4 - yoe.ediv 100 + doy
  era * 146097 + doe - 719468

/-- Model of `chrono::NaiveDateTime::parse_from_str` on the format
`"%Y-%m-%d %H:%M:%S"` applied to a 19-character slice, composed with
`.and_utc().timestamp()`: fixed-width 4-digit year and 2-digit fields with
calendar validation (chrono's variable-width numeric fields and leap-second
60 are not modelled; none arise from Docker's fixed-width timestamps). -/
def parseDateTime19 (l : List Char) : Option Int :=
  match l with
  | [y1, y2, y3, y4, s1, mo1, mo2, s2, d1, d2, s3,
      h1, h2, s4, mi1, mi2, s5, se1, se2] =>
    if [y1, y2, y3, y4, mo1, mo2, d1, d2, h1, h2, mi1, mi2,
          se1, se2].all isDigitChar &&
        (s1 == '-') && (s2 == '-') && (s3 == ' ') &&
        (s4 == ':') && (s5 == ':') then
      let y := ((digitVal y1 * 10 + digitVal y2) * 10 + digitVal y3) * 10 +
        digitVal y4
      let mo := digitVal mo1 * 10 + digitVal mo2
      let d := digitVal d1 * 10 + digitVal d2
      let h := digitVal h1 * 10 + digitVal h2
      let mi := digitVal mi1 * 10 + digitVal mi2
      let se := digitVal se1 * 10 + digitVal se2
      if 1 ≤ mo ∧ mo ≤ 12 ∧ 1 ≤ d ∧ d ≤ daysInMonth y mo ∧
          h ≤ 23 ∧ mi ≤ 59 ∧ se ≤ 59 then
        some (daysFromCivil y mo d * 86400 +
          ((h : Int) * 3600 + (mi : Int) * 60 + (se : Int)))
      else none
    else none
  | _ => none

/-- `parse_docker_timestamp`: slice the first 19 bytes (`none` = panic),
parse them, 0 on parse failure. -/
def parse_docker_timestamp (s : String) : Option Int :=
  match sliceBytes 19 s.data with
  | none => none
  | some l =>
    some
      (match parseDateTime19 l with
      | some t => t
      | none => 0)

/-- C9, evidence: the timestamp parser is **not** total.  On the empty
string and on `"2024-01-15"` — inputs shorter than 19 bytes, which the
claim says must yield 0 — the byte slice `&timestamp_str[..19]` is out of
bounds and the function panics (modelled as `none`), while a full
well-formed Docker timestamp parses to its UTC unix seconds. -/
theorem parse_docker_timestamp_panics_on_short_input :
    parse_docker_timestamp "" = none ∧
    parse_docker_timestamp "2024-01-15" = none ∧
    parse_docker_timestamp "2024-01-15 10:30:45 +0000 UTC" =
      some 1705314645 := by
  refine ⟨rfl, by decide, by decide⟩

/-! ## Size strings (src/dockermon/src/cleanup/types.rs `format_bytes`,
src/updatectl/src/webhook.rs `parse_docker_size_str`)

`format_bytes` prints the GB branch with `format!("{:.2}GB", bytes as f64
/ GB as f64)` and the lower branches with integer division;
`parse_docker_size_str` parses with `str::parse::<f64>` and truncates
`num * multiplier` to `u64`.  The floating-point operations are modelled
with exact rational arithmetic: fixed-point formatting is rounding to the
nearest hundredth (ties to even, as Rust's float formatter rounds), and
the decimal parse yields the exact rational value of the literal.  All
quantities involved carry at most 21 significant bits next to a claim
slack of more than 2^22 units, so every binary64 rounding error (at most a
few units in the 53rd significant bit) is absorbed by the stated bounds. -/

/-- The ASCII digit for `d < 10`. -/
def decDigitChar (d : Nat) : Char :=
  Char.ofNat (48 + d)

/-- Least-significant-first decimal digits of `n`, with enough fuel
(`n` itself always suffices). -/
def decDigitsRev (fuel n : Nat) : List Char :=
  match fuel with
  | 0 => []
  | fuel + 1 =>
    if n = 0 then [] else decDigitChar (n % 10) :: decDigitsRev fuel (n / 10)

/-- Decimal rendering of a natural number (model of Rust integer
`Display`), most significant digit first. -/
def natDecList (n : Nat) : List Char :=
  if n = 0 then ['0'] else (decDigitsRev n n).reverse

/-- Value of a most-significant-first digit string. -/
def decValN (l : List Char) : Nat :=
  l.foldl (fun acc c => 10 * acc + digitVal c) 0

/-- Round `n * 100 / 2^30` to the nearest integer, ties to even: the
number of hundredths printed by `format!("{:.2}", n as f64 / GB as f64)`. -/
def rhe100 (n : Nat) : Nat :=
  let q := n * 100
  let f := q / (1024 * 1024 * 1024)
  let r := q % (1024 * 1024 * 1024)
  if 2 * r < 1024 * 1024 * 1024 then f
  else if 1024 * 1024 * 1024 < 2 * r then f + 1
  else if f % 2 = 0 then f else f + 1

/-- Two-digit zero-padded rendering of `m < 100` (the two decimals of
`{:.2}`). -/
def pad2 (m : Nat) : List Char :=
  if m < 10 then '0' :: natDecList m else natDecList m

/-- `format_bytes`: `{:.2}GB` for ≥ 1 GiB, integer `MB` / `KB` / `B`
below. -/
def format_bytes (n : Nat) : String :=
  if n ≥ 1024 * 1024 * 1024 then
    ⟨natDecList (rhe100 n / 100) ++ '.' :: pad2 (rhe100 n % 100) ++ ['G', 'B']⟩
  else if n ≥ 1024 * 1024 then
    ⟨natDecList (n / (1024 * 1024)) ++ ['M', 'B']⟩
  else if n ≥ 1024 then
    ⟨natDecList (n / 1024) ++ ['K', 'B']⟩
  else
    ⟨natDecList n ++ ['B']⟩

/-- The exact value of a parsed decimal float literal:
`mantissa / 10 ^ scale`.  A binary64 parse of a Docker size literal is
modelled by this exact rational value (see the section comment). -/
structure DecFloat where
  mantissa : Int
  scale : Nat
deriving DecidableEq, Repr

/-- Model of `str::parse::<f64>` on plain decimal literals, with the
exact value: optional sign, integer digits, optional fractional digits
(the exponent/inf/nan forms Rust also accepts never occur in Docker size
strings). -/
def parseF64Dec (l : List Char) : Option DecFloat :=
  let neg := l.head? == some '-'
  let rest :=
    if (l.head? == some '-') || (l.head? == some '+') then l.tail else l
  let applySign : Int → Int := fun m => if neg then -m else m
  match splitCharList '.' rest with
  | [ip] =>
    if !ip.isEmpty && ip.all isDigitChar then
      some ⟨applySign (decValN ip), 0⟩
    else none
  | [ip, fp] =>
    if (!ip.isEmpty || !fp.isEmpty) && ip.all isDigitChar &&
        fp.all isDigitChar then
      some ⟨applySign (decValN ip * 10 ^ fp.length + decValN fp), fp.length⟩
    else none
  | _ => none

/-- Rust `(num * multiplier as f64) as u64` on the exact value
`num = mantissa / 10 ^ scale`: truncate toward zero, saturating at the
`u64` range (negative and NaN inputs cast to 0). -/
def f64MulAsU64 (num : DecFloat) (multiplier : Nat) : Nat :=
  let p : Int := num.mantissa * multiplier
  if p < 0 then 0
  else if (18446744073709551616 : Int) * 10 ^ num.scale ≤ p then
    18446744073709551615
  else p.toNat / 10 ^ num.scale

/-- `parse_docker_size_str`: trim, uppercase, strip the `GB`/`MB`/`KB`/`B`
suffix, parse the number as a float, multiply by the unit and truncate to
`u64` (0 when the number does not parse). -/
def parse_docker_size_str (s : String) : Nat :=
  let su := (rustTrimList s.data).map asciiUpperChar
  let (num_str, multiplier) : List Char × Nat :=
    if endsWithList su ['G', 'B'] then
      (su.take (su.length - 2), 1024 * 1024 * 1024)
    else if endsWithList su ['M', 'B'] then
      (su.take (su.length - 2), 1024 * 1024)
    else if endsWithList su ['K', 'B'] then
      (su.take (su.length - 2), 1024)
    else if endsWithList su ['B'] then
      (su.take (su.length - 1), 1)
    else (su, 1)
  match parseF64Dec num_str with
  | some num => f64MulAsU64 num multiplier
  | none => 0

example : format_bytes 1536 = "1KB" := by decide
example : format_bytes (1536 * 1024 * 1024) = "1.50GB" := by decide
example : parse_docker_size_str "1.5GB" = 1610612736 := by decide
example : parse_docker_size_str "250MB" = 262144000 := by decide
example : parse_docker_size_str "0B" = 0 := by decide
example : parse_docker_size_str (format_bytes 1536) = 1024 := by decide

/-- The character of a decimal digit is a digit character. -/
theorem decDigitChar_isDigit {d : Nat} (h : d < 10) :
    isDigitChar (decDigitChar d) = true := by
  interval_cases d <;> decide

/-- `digitVal` inverts `decDigitChar` on decimal digits. -/
theorem digitVal_decDigitChar {d : Nat} (h : d < 10) :
    digitVal (decDigitChar d) = d := by
  interval_cases d <;> decide

/-- Every character `decDigitsRev` emits is a digit character. -/
theorem decDigitsRev_all_digits (fuel : Nat) :
    ∀ n, (decDigitsRev fuel n).all isDigitChar = true := by
  induction fuel with
  | zero => intro n; rfl
  | succ fuel ih =>
    intro n
    by_cases h0 : n = 0
    · simp [decDigitsRev, h0]
    · simp [decDigitsRev, h0, ih (n / 10),
        decDigitChar_isDigit (Nat.mod_lt n (by norm_num))]

/-- The decimal rendering consists of digit characters. -/
theorem natDecList_all_digits (n : Nat) :
    (natDecList n).all isDigitChar = true := by
  by_cases h0 : n = 0
  · simp [natDecList, h0]; decide
  · simp only [natDecList, h0, if_false]
    rw [List.all_eq_true] at *
    intro c hc
    have := decDigitsRev_all_digits n n
    rw [List.all_eq_true] at this
    exact this c (List.mem_reverse.mp hc)

/-- The decimal rendering is never empty. -/
theorem natDecList_ne_nil (n : Nat) : natDecList n ≠ [] := by
  by_cases h0 : n = 0
  · simp [natDecList, h0]
  · simp only [natDecList, h0, if_false]
    intro hrev
    have : decDigitsRev n n = [] := by
      simpa using congrArg List.reverse hrev
    rw [show decDigitsRev n n =
        (if n = 0 then [] else decDigitChar (n % 10) :: decDigitsRev (n - 1) (n / 10)) from ?_] at this
    · simp [h0] at this
    · match hn : n with
      | 0 => simp at h0
      | m + 1 => simp [decDigitsRev]

/-- Folding the digit-value step from an accumulator. -/
theorem decValN_foldl_acc (l : List Char) :
    ∀ a : Nat, l.foldl (fun acc c => 10 * acc + digitVal c) a =
      a * 10 ^ l.length + decValN l := by
  induction l with
  | nil => intro a; simp [decValN]
  | cons c t ih =>
    intro a
    simp only [List.foldl_cons, List.length_cons, decValN]
    rw [ih (10 * a + digitVal c), ih (10 * 0 + digitVal c)]
    ring

/-- `decValN` over an append. -/
theorem decValN_append (l1 l2 : List Char) :
    decValN (l1 ++ l2) =
      decValN l1 * 10 ^ l2.length + decValN l2 := by
  simp only [decValN, List.foldl_append]
  rw [decValN_foldl_acc l2 (l1.foldl _ 0)]
  rfl

/-- The fuel-based digit extraction is correct: reading the rendered
digits back yields the number, for any sufficient fuel. -/
theorem decValN_decDigitsRev (fuel : Nat) :
    ∀ n, n ≤ fuel → decValN (decDigitsRev fuel n).reverse = n := by
  induction fuel with
  | zero =>
    intro n hn
    interval_cases n
    rfl
  | succ fuel ih =>
    intro n hn
    by_cases h0 : n = 0
    · simp [decDigitsRev, h0, decValN]
    · have hdiv : n / 10 ≤ fuel := by omega
      simp only [decDigitsRev, h0, if_false, List.reverse_cons]
      rw [decValN_append, ih (n / 10) hdiv]
      have hm : n % 10 < 10 := Nat.mod_lt n (by norm_num)
      simp [decValN, digitVal_decDigitChar hm]
      omega

/-- Parsing back the decimal rendering yields the original number. -/
theorem decValN_natDecList (n : Nat) : decValN (natDecList n) = n := by
  by_cases h0 : n = 0
  · simp [natDecList, h0]; rfl
  · simp only [natDecList, h0, if_false]
    exact decValN_decDigitsRev n n le_rfl

/-- A digit character differs from any non-digit character. -/
theorem isDigit_ne {c x : Char} (h : isDigitChar c = true)
    (hx : isDigitChar x = false) : c ≠ x := by
  intro he
  rw [he, hx] at h
  exact Bool.noConfusion h

/-- Digit characters are not whitespace. -/
theorem isDigit_not_ws {c : Char} (h : isDigitChar c = true) :
    c.isWhitespace = false := by
  have h32 : c ≠ ' ' := fun he => by rw [he] at h; exact absurd h (by decide)
  have h9 : c ≠ '\t' := fun he => by rw [he] at h; exact absurd h (by decide)
  have h13 : c ≠ '\r' := fun he => by rw [he] at h; exact absurd h (by decide)
  have h10 : c ≠ '\n' := fun he => by rw [he] at h; exact absurd h (by decide)
  simp [Char.isWhitespace, h32, h9, h13, h10]

/-- ASCII uppercasing leaves digit characters unchanged. -/
theorem asciiUpperChar_digit {c : Char} (h : isDigitChar c = true) :
    asciiUpperChar c = c := by
  simp only [isDigitChar, decide_eq_true_eq] at h
  simp only [asciiUpperChar]
  rw [if_neg (by omega)]

/-- A pointwise-identity map is the identity on lists satisfying `p`. -/
theorem map_id_of_all {p : Char → Bool} {f : Char → Char}
    (hf : ∀ c, p c = true → f c = c) :
    ∀ l : List Char, l.all p = true → l.map f = l := by
  intro l
  induction l with
  | nil => intro _; rfl
  | cons c t ih =>
    intro hall
    rw [List.all_cons, Bool.and_eq_true] at hall
    simp [hf c hall.1, ih hall.2]

/-- `dropWhile` is the identity when no element satisfies the predicate. -/
theorem dropWhile_ws_eq (l : List Char)
    (h : ∀ c ∈ l, c.isWhitespace = false) :
    l.dropWhile Char.isWhitespace = l := by
  cases l with
  | nil => rfl
  | cons c cs => simp [List.dropWhile_cons, h c (by simp)]

/-- Trimming is the identity on whitespace-free lists. -/
theorem rustTrimList_eq_self (l : List Char)
    (h : ∀ c ∈ l, c.isWhitespace = false) : rustTrimList l = l := by
  unfold rustTrimList
  rw [dropWhile_ws_eq l h,
    dropWhile_ws_eq l.reverse (fun c hc => h c (List.mem_reverse.mp hc)),
    List.reverse_reverse]

/-- A list is a `Bool`-prefix of itself followed by anything. -/
theorem isPrefixOf_append_self (a b : List Char) :
    a.isPrefixOf (a ++ b) = true := by
  induction a with
  | nil => simp [List.isPrefixOf]
  | cons c t ih => simp [List.isPrefixOf, ih]

/-- A list ends with its own suffix. -/
theorem endsWithList_append (l p : List Char) :
    endsWithList (l ++ p) p = true := by
  simp only [endsWithList, List.reverse_append]
  exact isPrefixOf_append_self _ _

/-- Testing a two-character suffix against a list ending in two known
characters compares the characters pairwise. -/
theorem endsWithList_pair (l : List Char) (a b c d : Char) :
    endsWithList (l ++ [a, b]) [c, d] = ((d == b) && (c == a)) := by
  simp only [endsWithList, List.reverse_append, List.isPrefixOf]
  cases hdb : d == b <;> cases hca : c == a <;> simp [List.isPrefixOf]

/-- Testing a two-character suffix against a list ending in one known
character peels off that character. -/
theorem endsWithList_snoc_pair (l : List Char) (a c d : Char) :
    endsWithList (l ++ [a]) [c, d] = ((d == a) && endsWithList l [c]) := by
  simp only [endsWithList, List.reverse_append, List.isPrefixOf]
  rfl

/-- Testing a one-character suffix against a list ending in a known
character. -/
theorem endsWithList_single (l : List Char) (a c : Char) :
    endsWithList (l ++ [a]) [c] = (c == a) := by
  simp only [endsWithList, List.reverse_append, List.isPrefixOf]
  cases hca : c == a <;> simp [List.isPrefixOf]

/-- An all-digits list never ends in a non-digit character. -/
theorem endsWithList_digits_false (l : List Char)
    (hl : l.all isDigitChar = true) (c : Char)
    (hc : isDigitChar c = false) : endsWithList l [c] = false := by
  unfold endsWithList
  cases hr : l.reverse with
  | nil => rfl
  | cons a t =>
    have ha : a ∈ l := by
      rw [← List.mem_reverse, hr]; simp
    rw [List.all_eq_true] at hl
    have : c ≠ a := fun he => isDigit_ne (hl a ha) hc he.symm
    simp [List.isPrefixOf, this]

/-- Splitting a list free of the separator yields the single piece. -/
theorem splitCharList_no_sep (sep : Char) (l : List Char)
    (h : ∀ c ∈ l, c ≠ sep) : splitCharList sep l = [l] := by
  induction l with
  | nil => rfl
  | cons c cs ih =>
    have hrest := ih (fun x hx => h x (by simp [hx]))
    simp only [splitCharList, hrest]
    rw [if_neg (h c (by simp))]

/-- Splitting around one separator occurrence splits off the first piece. -/
theorem splitCharList_sep_append (sep : Char) (a b : List Char)
    (ha : ∀ c ∈ a, c ≠ sep) :
    splitCharList sep (a ++ sep :: b) = a :: splitCharList sep b := by
  induction a with
  | nil => simp [splitCharList]
  | cons c t ih =>
    have hrest := ih (fun x hx => ha x (by simp [hx]))
    simp only [List.cons_append, splitCharList, List.append_eq, hrest]
    rw [if_neg (ha c (by simp))]

/-- The characters a size string may contain: digits, the decimal point
and the unit letters. -/
def sizeAlphabet (c : Char) : Bool :=
  isDigitChar c || (c == '.') || (c == 'G') || (c == 'B') || (c == 'K') ||
    (c == 'M')

/-- Size-string characters are not whitespace. -/
theorem sizeAlphabet_not_ws {c : Char} (h : sizeAlphabet c = true) :
    c.isWhitespace = false := by
  simp only [sizeAlphabet, Bool.or_eq_true, beq_iff_eq] at h
  rcases h with ((((hd | h1) | h1) | h1) | h1) | h1
  · exact isDigit_not_ws hd
  all_goals rw [h1]; decide

/-- ASCII uppercasing fixes every size-string character. -/
theorem sizeAlphabet_upper {c : Char} (h : sizeAlphabet c = true) :
    asciiUpperChar c = c := by
  simp only [sizeAlphabet, Bool.or_eq_true, beq_iff_eq] at h
  rcases h with ((((hd | h1) | h1) | h1) | h1) | h1
  · exact asciiUpperChar_digit hd
  all_goals rw [h1]; decide

/-- Digit characters belong to the size alphabet. -/
theorem digit_sizeAlphabet {c : Char} (h : isDigitChar c = true) :
    sizeAlphabet c = true := by
  simp [sizeAlphabet, h]

/-- An all-digits list lies in the size alphabet. -/
theorem all_sizeAlphabet_of_digits (l : List Char)
    (h : l.all isDigitChar = true) : l.all sizeAlphabet = true := by
  rw [List.all_eq_true] at *
  exact fun c hc => digit_sizeAlphabet (h c hc)

/-- Trimming and uppercasing are the identity on size-alphabet lists. -/
theorem sanitize_eq_self (l : List Char) (h : l.all sizeAlphabet = true) :
    (rustTrimList l).map asciiUpperChar = l := by
  rw [List.all_eq_true] at h
  rw [rustTrimList_eq_self l (fun c hc => sizeAlphabet_not_ws (h c hc))]
  exact map_id_of_all (fun c hc => sizeAlphabet_upper hc) l
    (List.all_eq_true.mpr h)

/-- The two printed decimals of `{:.2}`: length, value and digit-ness. -/
theorem pad2_spec (m : Nat) (h : m < 100) :
    (pad2 m).length = 2 ∧ decValN (pad2 m) = m ∧
      (pad2 m).all isDigitChar = true := by
  interval_cases m <;> exact ⟨by decide, by decide, by decide⟩

/-- Evaluation of the float parser on a plain digit string. -/
theorem parseF64Dec_digits (l : List Char) (hne : l ≠ [])
    (hd : l.all isDigitChar = true) :
    parseF64Dec l = some ⟨(decValN l : Int), 0⟩ := by
  have hall : ∀ x ∈ l, isDigitChar x = true := List.all_eq_true.mp hd
  cases l with
  | nil => exact absurd rfl hne
  | cons c cs =>
    have hcd : isDigitChar c = true := hall c (by simp)
    have hm : c ≠ '-' := isDigit_ne hcd (by decide)
    have hp : c ≠ '+' := isDigit_ne hcd (by decide)
    have hdot : ∀ x ∈ c :: cs, x ≠ '.' :=
      fun x hx => isDigit_ne (hall x hx) (by decide)
    have hsplit := splitCharList_no_sep '.' (c :: cs) hdot
    have hb1 : ((c :: cs).head? == some '-') = false := by simp [hm]
    have hb2 : ((c :: cs).head? == some '+') = false := by simp [hp]
    simp [parseF64Dec, hb1, hb2, hd, hall]
    rw [if_neg (show ¬(c = '-' ∨ c = '+') from by simp [hm, hp]), hsplit]
    simp [hall, hm]
    exact fun x hx => hall x (List.mem_cons_of_mem c hx)

/-- Evaluation of the float parser on `digits.digits`. -/
theorem parseF64Dec_point (ip fp : List Char) (hip : ip ≠ [])
    (hdi : ip.all isDigitChar = true) (hdf : fp.all isDigitChar = true) :
    parseF64Dec (ip ++ '.' :: fp) =
      some ⟨(decValN ip : Int) * 10 ^ fp.length + (decValN fp : Int),
        fp.length⟩ := by
  have halli : ∀ x ∈ ip, isDigitChar x = true := List.all_eq_true.mp hdi
  have hallf : ∀ x ∈ fp, isDigitChar x = true := List.all_eq_true.mp hdf
  cases ip with
  | nil => exact absurd rfl hip
  | cons c cs =>
    have hcd : isDigitChar c = true := halli c (by simp)
    have hm : c ≠ '-' := isDigit_ne hcd (by decide)
    have hp : c ≠ '+' := isDigit_ne hcd (by decide)
    have hdoti : ∀ x ∈ c :: cs, x ≠ '.' :=
      fun x hx => isDigit_ne (halli x hx) (by decide)
    have hsplit := splitCharList_sep_append '.' (c :: cs) fp hdoti
    rw [show (c :: cs) ++ '.' :: fp = c :: (cs ++ '.' :: fp) from rfl]
      at hsplit
    have hsplit2 := splitCharList_no_sep '.' fp
      (fun x hx => isDigit_ne (hallf x hx) (by decide))
    have hb1 : ((c :: (cs ++ '.' :: fp)).head? == some '-') = false := by
      simp [hm]
    have hb2 : ((c :: (cs ++ '.' :: fp)).head? == some '+') = false := by
      simp [hp]
    simp only [List.cons_append, parseF64Dec, hb1, hb2, Bool.or_self,
      Bool.or_false, Bool.false_or, if_false, Bool.false_eq_true]
    rw [hsplit, hsplit2]
    simp [hdi, hdf, hallf, halli]

/-- The nearest-hundredth rounding of `n / 2^30` is within half a
hundredth: two-sided bound in integers. -/
theorem rhe100_bound (n : Nat) :
    rhe100 n * (1024 * 1024 * 1024) ≤ n * 100 + 536870912 ∧
      n * 100 ≤ rhe100 n * (1024 * 1024 * 1024) + 536870912 := by
  have hdm := Nat.div_add_mod (n * 100) (1024 * 1024 * 1024)
  have hlt : n * 100 % (1024 * 1024 * 1024) < 1024 * 1024 * 1024 :=
    Nat.mod_lt _ (by norm_num)
  simp only [rhe100]
  split
  · omega
  · split
    · omega
    · split <;> omega

/-- Round-trip evaluation, KB branch: the rendered size parses back to
`n / 1024 * 1024`. -/
theorem parse_format_kb (n : Nat) (h1 : 1024 ≤ n) (h2 : n < 1048576) :
    parse_docker_size_str (format_bytes n) = n / 1024 * 1024 := by
  have hfmt : format_bytes n = ⟨natDecList (n / 1024) ++ ['K', 'B']⟩ := by
    unfold format_bytes
    rw [if_neg (by omega), if_neg (by omega), if_pos (by omega)]
  rw [hfmt]
  have hdig : (natDecList (n / 1024)).all isDigitChar = true :=
    natDecList_all_digits _
  have hne : natDecList (n / 1024) ≠ [] := natDecList_ne_nil _
  have halpha : (natDecList (n / 1024) ++ ['K', 'B']).all sizeAlphabet = true := by
    rw [List.all_append, Bool.and_eq_true]
    exact ⟨all_sizeAlphabet_of_digits _ hdig, by decide⟩
  have hsan := sanitize_eq_self _ halpha
  have hgb : endsWithList (natDecList (n / 1024) ++ ['K', 'B']) ['G', 'B'] = false := by
    rw [endsWithList_pair]; decide
  have hmb : endsWithList (natDecList (n / 1024) ++ ['K', 'B']) ['M', 'B'] = false := by
    rw [endsWithList_pair]; decide
  have hkb : endsWithList (natDecList (n / 1024) ++ ['K', 'B']) ['K', 'B'] = true := by
    rw [endsWithList_pair]; decide
  have hlen : (natDecList (n / 1024) ++ ['K', 'B']).length - 2 =
      (natDecList (n / 1024)).length := by
    simp [List.length_append]
  simp only [parse_docker_size_str, hsan, hgb, hmb, hkb,
    Bool.false_eq_true, if_false, if_true, hlen, List.take_left,
    parseF64Dec_digits _ hne hdig, decValN_natDecList]
  simp only [f64MulAsU64]
  rw [if_neg (show ¬((((n / 1024 : Nat) : Int) * ((1024 : Nat) : Int)) < 0)
      from by push_cast; omega),
    if_neg (by rw [pow_zero, mul_one]; push_cast; omega)]
  simp only [pow_zero, Nat.div_one]
  push_cast
  omega

/-- Round-trip evaluation, MB branch. -/
theorem parse_format_mb (n : Nat) (h1 : 1048576 ≤ n) (h2 : n < 1073741824) :
    parse_docker_size_str (format_bytes n) = n / 1048576 * 1048576 := by
  have hfmt : format_bytes n = ⟨natDecList (n / (1024 * 1024)) ++ ['M', 'B']⟩ := by
    unfold format_bytes
    rw [if_neg (by omega), if_pos (by omega)]
  rw [hfmt]
  have hdig : (natDecList (n / (1024 * 1024))).all isDigitChar = true :=
    natDecList_all_digits _
  have hne : natDecList (n / (1024 * 1024)) ≠ [] := natDecList_ne_nil _
  have halpha : (natDecList (n / (1024 * 1024)) ++ ['M', 'B']).all sizeAlphabet = true := by
    rw [List.all_append, Bool.and_eq_true]
    exact ⟨all_sizeAlphabet_of_digits _ hdig, by decide⟩
  have hsan := sanitize_eq_self _ halpha
  have hgb : endsWithList (natDecList (n / (1024 * 1024)) ++ ['M', 'B']) ['G', 'B'] = false := by
    rw [endsWithList_pair]; decide
  have hmb : endsWithList (natDecList (n / (1024 * 1024)) ++ ['M', 'B']) ['M', 'B'] = true := by
    rw [endsWithList_pair]; decide
  have hlen : (natDecList (n / (1024 * 1024)) ++ ['M', 'B']).length - 2 =
      (natDecList (n / (1024 * 1024))).length := by
    simp [List.length_append]
  simp only [parse_docker_size_str, hsan, hgb, hmb,
    Bool.false_eq_true, if_false, if_true, hlen, List.take_left,
    parseF64Dec_digits _ hne hdig, decValN_natDecList]
  simp only [f64MulAsU64]
  rw [if_neg (show ¬((((n / 1048576 : Nat) : Int) * ((1024 * 1024 : Nat) : Int)) < 0)
      from by push_cast; omega),
    if_neg (by rw [pow_zero, mul_one]; push_cast; omega)]
  simp only [pow_zero, Nat.div_one]
  push_cast
  omega

/-- Round-trip evaluation, GB branch: the rendered hundredths `h = rhe100 n`
parse back and the result is `h * 2^30 / 100`, saturated at the `u64`
ceiling. -/
theorem parse_format_gb (n : Nat) (h1 : 1073741824 ≤ n) :
    parse_docker_size_str (format_bytes n) =
      if 18446744073709551616 * 100 ≤ rhe100 n * 1073741824 then
        18446744073709551615
      else rhe100 n * 1073741824 / 100 := by
  have hmod : rhe100 n % 100 < 100 := Nat.mod_lt _ (by norm_num)
  obtain ⟨hplen, hpval, hpdig⟩ := pad2_spec (rhe100 n % 100) hmod
  have hfmt : format_bytes n =
      ⟨(natDecList (rhe100 n / 100) ++ '.' :: pad2 (rhe100 n % 100)) ++
        ['G', 'B']⟩ := by
    unfold format_bytes
    rw [if_pos (by omega)]
  rw [hfmt]
  have hdig : (natDecList (rhe100 n / 100)).all isDigitChar = true :=
    natDecList_all_digits _
  have hne : natDecList (rhe100 n / 100) ≠ [] := natDecList_ne_nil _
  have halpha :
      ((natDecList (rhe100 n / 100) ++ '.' :: pad2 (rhe100 n % 100)) ++
        ['G', 'B']).all sizeAlphabet = true := by
    rw [List.all_append, List.all_append, Bool.and_eq_true, Bool.and_eq_true]
    exact ⟨⟨all_sizeAlphabet_of_digits _ hdig, by
      rw [List.all_cons, Bool.and_eq_true]
      exact ⟨by decide, all_sizeAlphabet_of_digits _ hpdig⟩⟩,
      by decide⟩
  have hsan := sanitize_eq_self _ halpha
  have hgb : endsWithList
      ((natDecList (rhe100 n / 100) ++ '.' :: pad2 (rhe100 n % 100)) ++
        ['G', 'B']) ['G', 'B'] = true := endsWithList_append _ _
  have hlen :
      ((natDecList (rhe100 n / 100) ++ '.' :: pad2 (rhe100 n % 100)) ++
        ['G', 'B']).length - 2 =
      (natDecList (rhe100 n / 100) ++ '.' :: pad2 (rhe100 n % 100)).length := by
    simp only [List.length_append, List.length_cons, List.length_nil]
    omega
  have hparse := parseF64Dec_point (natDecList (rhe100 n / 100))
    (pad2 (rhe100 n % 100)) hne hdig hpdig
  simp only [parse_docker_size_str, hsan, hgb, if_true, hlen,
    List.take_left, hparse, decValN_natDecList, hpval, hplen]
  simp only [f64MulAsU64]
  have hmant : ((rhe100 n / 100 : Nat) : Int) * 10 ^ 2 +
      ((rhe100 n % 100 : Nat) : Int) = (rhe100 n : Int) := by
    push_cast
    omega
  rw [hmant]
  have h100i : ((10 : Int) ^ 2) = 100 := by norm_num
  have h100n : ((10 : Nat) ^ 2) = 100 := by norm_num
  rw [if_neg (show ¬(((rhe100 n : Int)) * ((1024 * 1024 * 1024 : Nat) : Int) < 0)
      from by push_cast; omega), h100i, h100n]
  split
  · next hsat =>
    rw [if_pos (by push_cast at hsat ⊢; omega)]
  · next hsat =>
    rw [if_neg (by push_cast at hsat ⊢; omega)]
    push_cast
    omega

/-- C6: for every byte count `n ≥ 1 KiB` (within `u64`), parsing the size
string produced by the byte formatter recovers `n` to within one unit of
the formatter's precision: the error is below 1 KiB when `n` formats in
KB, below 1 MiB when it formats in MB, and below 0.01 GiB (stated as
`error * 100 < 2^30`) when it formats in GB. -/
theorem size_string_roundtrip (n : Nat) (hn : 1024 ≤ n)
    (hu : n < 18446744073709551616) :
    (n < 1048576 →
      ((parse_docker_size_str (format_bytes n) : Int) - (n : Int)).natAbs <
        1024) ∧
    (1048576 ≤ n → n < 1073741824 →
      ((parse_docker_size_str (format_bytes n) : Int) - (n : Int)).natAbs <
        1048576) ∧
    (1073741824 ≤ n →
      ((parse_docker_size_str (format_bytes n) : Int) - (n : Int)).natAbs *
        100 < 1073741824) := by
  refine ⟨fun h2 => ?_, fun h1 h2 => ?_, fun h1 => ?_⟩
  · rw [parse_format_kb n hn h2]; omega
  · rw [parse_format_mb n h1 h2]; omega
  · rw [parse_format_gb n h1]
    have hb := rhe100_bound n
    split <;> omega

/-- Witness for `size_string_roundtrip` at the concrete byte count 1536:
`format_bytes 1536 = "1KB"` parses back to 1024, an error of 512 < 1024. -/
theorem size_string_roundtrip_witness :
    ((parse_docker_size_str (format_bytes 1536) : Int) -
      (1536 : Int)).natAbs < 1024 :=
  (size_string_roundtrip 1536 (by decide) (by decide)).1 (by decide)
